import Mathlib

/-!
Shallow embedding of `data-populator.js`, the reconciliation sync engine of the
pap-data-population repository: the backoff retrier `withRetry`, the reply
handling of the oracle client `LLMSource.getAccessStatuses`, the reconciler
`upsertRecords`, and the batch-planning loop and orchestration of `main`.
Machine timestamps are modelled as natural numbers supplied explicitly, the
persisted store as an explicit list of rows with an id sequence, and the
external store's per-call failures as an explicit fault-injection parameter.
-/

namespace DataPopulator

/-! ## Backoff retrier (`withRetry`, data-populator.js lines 41-62) -/

/-- An error thrown by the wrapped unit of work; `status` models `err.status`
(`none` when the error carries no HTTP status). -/
structure Err where
  status : Option Nat
  message : String
deriving DecidableEq

/-- The retry condition of line 50,
`err.status === 429 || (err.status && err.status >= 500)`.
A status of `0` is falsy in JavaScript, hence the `s != 0` conjunct. -/
def retryableErr (e : Err) : Bool :=
  match e.status with
  | some s => s == 429 || (s != 0 && decide (500 ≤ s))
  | none => false

/-- The computed sleep of line 51: `Math.min(2000 * 2 ** (attempt - 1), 30000)`. -/
def backoffDelay (attempt : Nat) : Nat :=
  min (2000 * 2 ^ (attempt - 1)) 30000

/-- The retry loop of `withRetry`.  `fn i` is the outcome of the `i`-th
invocation (0-based) of the wrapped unit of work, `c` is the index of the next
invocation and `a` the current value of the `attempt` counter (incremented on
each failure; the loop rethrows once `attempt > maxRetries`).  Returns the
final outcome together with the list of computed sleep delays, in order. -/
def withRetryGo {α : Type} (fn : Nat → Except Err α) (maxRetries c a : Nat) :
    Except Err α × List Nat :=
  match fn c with
  | .ok v => (.ok v, [])
  | .error e =>
    if maxRetries < a + 1 then (.error e, [])
    else if retryableErr e then
      let rest := withRetryGo fn maxRetries (c + 1) (a + 1)
      (rest.1, backoffDelay (a + 1) :: rest.2)
    else (.error e, [])
termination_by maxRetries - a
decreasing_by omega

/-- `withRetry(fn, maxRetries)` of lines 41-62, starting at the first
invocation with `attempt = 0`. -/
def withRetry {α : Type} (fn : Nat → Except Err α) (maxRetries : Nat) :
    Except Err α × List Nat :=
  withRetryGo fn maxRetries 0 0

/-- The default `maxRetries = 5` of line 41. -/
def defaultMaxRetries : Nat := 5

/-! ## Oracle client reply handling (`LLMSource.getAccessStatuses`, lines 90-109) -/

/-- JSON values, as produced by `JSON.parse` (objects keep their fields in
order; `JSON.parse` yields at most one binding per key). -/
inductive Json where
  | null
  | bool (b : Bool)
  | num (n : Int)
  | str (s : String)
  | arr (elems : List Json)
  | obj (fields : List (String × Json))

/-- `Array.isArray` as a refinement: the element list of an array value. -/
def Json.asArr? : Json → Option (List Json)
  | .arr xs => some xs
  | _ => none

/-- `Object.values(v)`: the immediate child values of a JSON value, in order.
`Object.values(null)` throws a `TypeError`, modelled as `none`; on a string it
yields its one-character strings, on numbers and booleans nothing. -/
def childValues : Json → Option (List Json)
  | .null => none
  | .bool _ => some []
  | .num _ => some []
  | .str s => some (s.data.map fun c => Json.str (String.singleton c))
  | .arr xs => some xs
  | .obj fs => some (fs.map Prod.snd)

/-- The first immediate child value that is a sequence, as selected on
line 101 by `Object.values(parsed).find((v) => Array.isArray(v))`
(`none` both when no child is a sequence and when `Object.values` throws). -/
def firstArrayChild (p : Json) : Option (List Json) :=
  match childValues p with
  | none => none
  | some vs => vs.findSome? Json.asArr?

/-- The oracle's reply as seen by `getAccessStatuses` after the chat call:
no content (`!raw` on line 91), content rejected by `JSON.parse`, or content
parsing to a JSON value. -/
inductive Reply where
  | empty
  | unparsable (raw : String)
  | parsed (value : Json)

/-- The failures thrown by lines 91-106, plus the `TypeError` raised by
`Object.values(null)` on line 101. -/
inductive OracleFailure where
  | emptyReply
  | malformedJson (snippet : String)
  | unexpectedShape (value : Json)
  | typeError

/-- Reply handling of `LLMSource.getAccessStatuses`, lines 90-109: throw on
missing content; throw on unparsable content (with the first 200 characters of
the raw reply); accept an array as is; otherwise use the first immediate child
value that is an array, throwing the unexpected-shape error when none exists
(`Object.values(null)` raising a `TypeError` instead). -/
def getAccessStatuses (reply : Reply) : Except OracleFailure (List Json) :=
  match reply with
  | .empty => .error .emptyReply
  | .unparsable raw => .error (.malformedJson (raw.take 200))
  | .parsed p =>
    match p.asArr? with
    | some xs => .ok xs
    | none =>
      match childValues p with
      | none => .error .typeError
      | some vs =>
        match vs.findSome? Json.asArr? with
        | some xs => .ok xs
        | none => .error (.unexpectedShape p)

/-! ## Reconciler (`upsertRecords`, lines 114-181) -/

/-- A record as destructured on line 116,
`const { substance, country_code, access_status } = rec`; a field is `none`
when the raw record lacks it (JavaScript `undefined`). -/
structure Rec where
  substance : Option String
  country_code : Option String
  access_status : Option String
deriving DecidableEq

/-- A persisted row of the `psychedelic_access` table: the store's opaque id,
the key and status columns (SQL `NULL` modelled as `none`), and the
`updated_at` timestamp. -/
structure Row where
  id : Nat
  substance : Option String
  country_code : Option String
  access_status : Option String
  updated_at : Nat
deriving DecidableEq

/-- The persisted store: its rows in insertion order plus the id sequence. -/
structure Store where
  rows : List Row
  nextId : Nat
deriving DecidableEq

/-- Serialization of a filter value in `.eq(col, v)`: an absent field is
serialized as the literal string "undefined"; a SQL `NULL` column matches no
`eq` filter at all. -/
def filterVal : Option String → String
  | some s => s
  | none => "undefined"

/-- The row filter of lines 121-122:
`.eq("substance", substance).eq("country_code", country_code)`. -/
def rowMatches (rec : Rec) (row : Row) : Bool :=
  row.substance == some (filterVal rec.substance) &&
    row.country_code == some (filterVal rec.country_code)

/-- The `.maybeSingle()` lookup of lines 118-123 (under the store's
at-most-one-row-per-key uniqueness invariant the first match is the only
match). -/
def findRow (st : Store) (rec : Rec) : Option Row :=
  st.rows.find? (rowMatches rec)

/-- The insert of lines 134-143: a fresh-id row carrying the record's fields
and `updated_at: new Date().toISOString()`, modelled as the supplied clock. -/
def Store.insertRow (st : Store) (rec : Rec) (now : Nat) : Store :=
  ⟨st.rows ++ [⟨st.nextId, rec.substance, rec.country_code, rec.access_status, now⟩],
    st.nextId + 1⟩

/-- The strict comparison `existing.access_status !== access_status` of
line 155.  The fetched row's SQL `NULL` column arrives as JavaScript `null`
and an absent record field is `undefined`; `null !== undefined` is true, as is
any comparison against exactly one absent side — the statuses agree only when
both are present and equal. -/
def statusDiffers (rowStatus recStatus : Option String) : Bool :=
  match rowStatus, recStatus with
  | some a, some b => a != b
  | _, _ => true

/-- Per-row effect of the update of lines 156-162: the row with the given id
gets a refreshed timestamp, and its status column is set to the record's
status when that status is present — an `undefined` status field is dropped by
JSON serialization of the PATCH body, leaving the column's old value.  Other
rows are unchanged. -/
def applyUpdate (rowId : Nat) (status : Option String) (now : Nat) (row : Row) : Row :=
  if row.id = rowId then
    ⟨row.id, row.substance, row.country_code,
      (match status with
       | some s => some s
       | none => row.access_status), now⟩
  else row

/-- The update of lines 156-162, keyed by `.eq("id", existing.id)`. -/
def Store.updateRow (st : Store) (rowId : Nat) (status : Option String) (now : Nat) : Store :=
  ⟨st.rows.map (applyUpdate rowId status now), st.nextId⟩

/-- The per-record decision logged by `upsertRecords` (error, insert, update
or no-op log lines). -/
inductive Decision where
  | fetchError
  | inserted
  | insertError
  | updated
  | updateError
  | skipped
deriving DecidableEq

/-- Store-side failure injection: which records' fetch, insert and update
calls come back with an error object. -/
structure StoreFaults where
  fetchFail : Rec → Bool
  insertFail : Rec → Bool
  updateFail : Rec → Bool

/-- Fault-free store behaviour. -/
def noFaults : StoreFaults := ⟨fun _ => false, fun _ => false, fun _ => false⟩

/-- The body of the `for` loop of `upsertRecords` (lines 115-180) for one
record: a fetch error is logged and the record skipped (`continue`); with no
existing row the record is inserted (a failed insert logged, leaving the store
unchanged); an existing row whose status differs under the strict comparison
of line 155 is updated (a failed update logged); otherwise the record is a
logged no-op. -/
def step (flt : StoreFaults) (now : Nat) (st : Store) (rec : Rec) : Store × Decision :=
  if flt.fetchFail rec then (st, .fetchError)
  else
    match findRow st rec with
    | none =>
      if flt.insertFail rec then (st, .insertError) else (st.insertRow rec now, .inserted)
    | some existing =>
      if statusDiffers existing.access_status rec.access_status then
        if flt.updateFail rec then (st, .updateError)
        else (st.updateRow existing.id rec.access_status now, .updated)
      else (st, .skipped)

/-- `upsertRecords(records)` of lines 114-181: fold the per-record body over
the record list, returning the final store and the decision log, one decision
per record. -/
def upsertRecords (flt : StoreFaults) (now : Nat) : List Rec → Store → Store × List Decision
  | [], st => (st, [])
  | r :: rs, st =>
    let p := step flt now st r
    let q := upsertRecords flt now rs p.1
    (q.1, p.2 :: q.2)

/-- A decision that wrote to the store. -/
def isWrite : Decision → Bool
  | .inserted => true
  | .updated => true
  | _ => false

/-- Two records address the same (subject, scope) key. -/
def sameKey (r r' : Rec) : Prop :=
  r.substance = r'.substance ∧ r.country_code = r'.country_code

instance (r r' : Rec) : Decidable (sameKey r r') :=
  inferInstanceAs (Decidable (And _ _))

/-- Every record carries both key fields. -/
def keysPresent (recs : List Rec) : Prop :=
  ∀ r ∈ recs, r.substance ≠ none ∧ r.country_code ≠ none

instance (recs : List Rec) : Decidable (keysPresent recs) :=
  inferInstanceAs (Decidable (∀ r ∈ recs, _ ∧ _))

/-- Every record carries a status field. -/
def statusPresent (recs : List Rec) : Prop :=
  ∀ r ∈ recs, r.access_status ≠ none

instance (recs : List Rec) : Decidable (statusPresent recs) :=
  inferInstanceAs (Decidable (∀ r ∈ recs, _))

/-- Any two records sharing a key carry the same status. -/
def keyConsistent (recs : List Rec) : Prop :=
  ∀ r ∈ recs, ∀ r' ∈ recs, sameKey r r' → r.access_status = r'.access_status

instance (recs : List Rec) : Decidable (keyConsistent recs) :=
  inferInstanceAs (Decidable (∀ r ∈ recs, ∀ r' ∈ recs, _ → _))

/-- Store sanity: ids are below the id sequence and pairwise distinct
(the id column is the table's primary key). -/
def Store.WF (st : Store) : Prop :=
  (∀ row ∈ st.rows, row.id < st.nextId) ∧ (st.rows.map Row.id).Nodup

instance (st : Store) : Decidable st.WF :=
  inferInstanceAs (Decidable ((∀ row ∈ st.rows, _) ∧ _))

/-- The store already holds the record's status under the record's key: the
looked-up row and the record both carry the same present status (the only
configuration in which the strict comparison of line 155 deems them equal). -/
def agrees (st : Store) (r : Rec) : Prop :=
  ∃ row s, findRow st r = some row ∧ row.access_status = some s ∧ r.access_status = some s

/-! ## Batch planner and orchestrator (`main`, lines 184-210) -/

/-- The fixed subject catalog of lines 20-25. -/
def SUBSTANCES : List String :=
  ["Ketamine", "MDMA", "Psilocybin", "Lysergic Acid Diethylamide"]

/-- The fixed scope catalog of lines 28-36: 193 ISO 3166-1 alpha-2 codes. -/
def COUNTRIES : List String :=
  ["AF", "AL", "DZ", "AD", "AO", "AG", "AR", "AM", "AU", "AT", "AZ", "BS", "BH",
   "BD", "BB", "BY", "BE", "BZ", "BJ", "BT", "BO", "BA", "BW", "BR", "BN", "BG",
   "BF", "BI", "CV", "KH", "CM", "CA", "CF", "TD", "CL", "CN", "CO", "KM", "CD",
   "CG", "CR", "CI", "HR", "CU", "CY", "CZ", "DK", "DJ", "DM", "DO", "EC", "EG",
   "SV", "GQ", "ER", "EE", "SZ", "ET", "FJ", "FI", "FR", "GA", "GM", "GE", "DE",
   "GH", "GR", "GD", "GT", "GN", "GW", "GY", "HT", "HN", "HU", "IS", "IN", "ID",
   "IR", "IQ", "IE", "IL", "IT", "JM", "JP", "JO", "KZ", "KE", "KI", "KP", "KR",
   "KW", "KG", "LA", "LV", "LB", "LS", "LR", "LY", "LI", "LT", "LU", "MG", "MW",
   "MY", "MV", "ML", "MT", "MH", "MR", "MU", "MX", "FM", "MD", "MC", "MN", "ME",
   "MA", "MZ", "MM", "NA", "NR", "NP", "NL", "NZ", "NI", "NE", "NG", "MK", "NO",
   "OM", "PK", "PW", "PS", "PA", "PG", "PY", "PE", "PH", "PL", "PT", "QA", "RO",
   "RU", "RW", "KN", "LC", "VC", "WS", "SM", "ST", "SA", "SN", "RS", "SC", "SL",
   "SG", "SK", "SI", "SB", "SO", "ZA", "SS", "ES", "LK", "SD", "SR", "SE", "CH",
   "SY", "TJ", "TZ", "TH", "TL", "TG", "TO", "TT", "TN", "TR", "TM", "TV", "UG",
   "UA", "AE", "GB", "US", "UY", "UZ", "VU", "VE", "VN", "YE", "ZM", "ZW"]

/-- The hard-coded `batchSize = 25` of line 188. -/
def batchSize : Nat := 25

/-- The slices `COUNTRIES.slice(i, i + batchSize)` taken in order by the loop
`for (let i = 0; i < COUNTRIES.length; i += batchSize)` of lines 191-200, one
recursive call per iteration on the remaining suffix.  A batch size of `0`,
on which the source loop would never terminate, is modelled as producing no
batches; the claims only concern positive batch sizes. -/
def planBatches {α : Type} (B : Nat) (scopes : List α) : List (List α) :=
  match scopes, B with
  | [], _ => []
  | _ :: _, 0 => []
  | s :: ss, B' + 1 => (s :: ss).take (B' + 1) :: planBatches (B' + 1) ((s :: ss).drop (B' + 1))
termination_by scopes.length
decreasing_by
  simp only [List.length_drop, List.length_cons]
  omega

/-- Outcome of a run of `main`: either all batches were collected and
reconciliation ran (lines 191-202), or a batch's oracle query threw and the
run aborted fatally (lines 207-210) with the store untouched by this run. -/
inductive RunResult where
  | completed (finalStore : Store) (decisions : List Decision)
  | fatalAborted (failure : OracleFailure) (finalStore : Store)

/-- The collection loop of lines 191-200 over `n` batches starting at batch
index `i`: `oracle i` is the outcome of `llm.getAccessStatuses(SUBSTANCES,
batch_i)` for the `i`-th batch, abstracted to the record level (`.error` a
thrown failure — retries exhausted, a non-retryable oracle error, or an
empty/malformed/unexpected-shape reply; `.ok` the destructured records).  The
first failure propagates; successes accumulate in order
(`allResults = allResults.concat(results)`). -/
def collectBatches (oracle : Nat → Except OracleFailure (List Rec)) :
    Nat → Nat → Except OracleFailure (List Rec)
  | _, 0 => .ok []
  | i, n + 1 =>
    match oracle i with
    | .error e => .error e
    | .ok rs =>
      match collectBatches oracle (i + 1) n with
      | .error e => .error e
      | .ok rest => .ok (rs ++ rest)

/-- `main()` of lines 184-210: plan the batches over `COUNTRIES`, collect
every batch's records, and only then reconcile the accumulated records once;
a throw anywhere in collection reaches the top-level catch before
`upsertRecords` is ever invoked. -/
def runMain (oracle : Nat → Except OracleFailure (List Rec)) (flt : StoreFaults)
    (now : Nat) (st0 : Store) : RunResult :=
  match collectBatches oracle 0 (planBatches batchSize COUNTRIES).length with
  | .error e => .fatalAborted e st0
  | .ok recs =>
    let p := upsertRecords flt now recs st0
    .completed p.1 p.2

/-! ## Concrete inputs used by counterexamples and witnesses -/

/-- The empty store. -/
def store0 : Store := ⟨[], 0⟩

/-- Two records sharing a key with conflicting statuses. -/
def dupRecs : List Rec :=
  [⟨some "Ketamine", some "US", some "Banned"⟩,
   ⟨some "Ketamine", some "US", some "Approved Medical Use"⟩]

/-- One record missing its subject identifier. -/
def missRecs : List Rec :=
  [⟨none, some "US", some "Banned"⟩]

/-- One record carrying both keys but no status. -/
def noStatusRecs : List Rec :=
  [⟨some "Ketamine", some "US", none⟩]

/-- A record carrying both keys but no status. -/
def recNoStatus : Rec := ⟨some "Ketamine", some "US", none⟩

/-- A store holding `recNoStatus`'s key as a row whose status column is
NULL (as the insert of a status-less record leaves it). -/
def storeNullStatus : Store := ⟨[⟨0, some "Ketamine", some "US", none, 5⟩], 1⟩

/-- A well-formed record. -/
def recA : Rec := ⟨some "Ketamine", some "US", some "Banned"⟩

/-- A second well-formed record with a distinct key. -/
def recB : Rec := ⟨some "MDMA", some "CA", some "Unknown"⟩

/-- A record sharing `recA`'s key with a different status. -/
def recA2 : Rec := ⟨some "Ketamine", some "US", some "Approved Medical Use"⟩

/-- Two well-formed records with distinct keys. -/
def goodRecs : List Rec := [recA, recB]

/-- A store already holding `recA` as a persisted row. -/
def store1 : Store := ⟨[⟨0, some "Ketamine", some "US", some "Banned", 0⟩], 1⟩

/-- Fault injection failing every fetch. -/
def fltFetch : StoreFaults := ⟨fun _ => true, fun _ => false, fun _ => false⟩

/-- Fault injection failing every insert. -/
def fltInsert : StoreFaults := ⟨fun _ => false, fun _ => true, fun _ => false⟩

/-- Fault injection failing every update. -/
def fltUpdate : StoreFaults := ⟨fun _ => false, fun _ => false, fun _ => true⟩

/-! ## Helper lemmas: batch planner -/

theorem planBatches_nil {α : Type} (B : Nat) : planBatches B ([] : List α) = [] := by
  rw [planBatches]

theorem planBatches_cons {α : Type} (B' : Nat) (s : α) (ss : List α) :
    planBatches (B' + 1) (s :: ss)
      = (s :: ss).take (B' + 1) :: planBatches (B' + 1) ((s :: ss).drop (B' + 1)) := by
  rw [planBatches]

theorem planBatches_spec {α : Type} (B : Nat) (hB : 0 < B) :
    ∀ (n : Nat) (xs : List α), xs.length ≤ n →
      (planBatches B xs).length = xs.length ⌈/⌉ B ∧
        (planBatches B xs).flatten = xs ∧
        ∀ b ∈ planBatches B xs, b.length ≤ B := by
  obtain ⟨B', rfl⟩ : ∃ B', B = B' + 1 := ⟨B - 1, by omega⟩
  intro n
  induction n with
  | zero =>
    intro xs hx
    have hxs : xs = [] := List.length_eq_zero.mp (Nat.le_zero.mp hx)
    subst hxs
    refine ⟨?_, ?_, ?_⟩
    · rw [planBatches_nil]
      simp only [List.length_nil, Nat.ceilDiv_eq_add_pred_div]
      exact (Nat.div_eq_of_lt (by omega)).symm
    · rw [planBatches_nil]
      rfl
    · intro b hb
      rw [planBatches_nil] at hb
      cases hb
  | succ n ih =>
    intro xs hx
    cases xs with
    | nil =>
      refine ⟨?_, ?_, ?_⟩
      · rw [planBatches_nil]
        simp only [List.length_nil, Nat.ceilDiv_eq_add_pred_div]
        exact (Nat.div_eq_of_lt (by omega)).symm
      · rw [planBatches_nil]
        rfl
      · intro b hb
        rw [planBatches_nil] at hb
        cases hb
    | cons s ss =>
      have hdrop : ((s :: ss).drop (B' + 1)).length ≤ n := by
        simp only [List.length_drop, List.length_cons]
        simp only [List.length_cons] at hx
        omega
      obtain ⟨ihlen, ihflat, ihle⟩ := ih ((s :: ss).drop (B' + 1)) hdrop
      rw [planBatches_cons]
      refine ⟨?_, ?_, ?_⟩
      · rw [List.length_cons, ihlen]
        simp only [List.length_drop, List.length_cons, Nat.ceilDiv_eq_add_pred_div]
        rcases Nat.lt_or_ge (ss.length + 1) (B' + 1) with hlt | hge
        · have h1 : ss.length + 1 - (B' + 1) = 0 := by omega
          rw [h1]
          have h2 : (0 + (B' + 1) - 1) / (B' + 1) = 0 :=
            Nat.div_eq_of_lt (by omega)
          rw [h2]
          have h3 : 1 ≤ (ss.length + 1 + (B' + 1) - 1) / (B' + 1) :=
            (Nat.le_div_iff_mul_le (by omega)).mpr (by omega)
          have h4 : (ss.length + 1 + (B' + 1) - 1) / (B' + 1) < 2 :=
            (Nat.div_lt_iff_lt_mul (by omega)).mpr (by omega)
          omega
        · have h1 : ss.length + 1 + (B' + 1) - 1
              = (ss.length + 1 - (B' + 1) + (B' + 1) - 1) + (B' + 1) := by omega
          rw [h1, Nat.add_div_right _ (by omega)]
      · rw [List.flatten_cons, ihflat, List.take_append_drop]
      · intro b hb
        rcases List.mem_cons.mp hb with rfl | hb'
        · exact List.length_take_le (B' + 1) (s :: ss)
        · exact ihle b hb'

/-! ## Helper lemmas: backoff retrier -/

theorem withRetryGo_ok {α : Type} (fn : Nat → Except Err α) (m c a : Nat) (v : α)
    (h : fn c = .ok v) : withRetryGo fn m c a = (.ok v, []) := by
  rw [withRetryGo, h]

theorem withRetryGo_exhausted {α : Type} (fn : Nat → Except Err α) (m c a : Nat) (e : Err)
    (h : fn c = .error e) (hm : m < a + 1) : withRetryGo fn m c a = (.error e, []) := by
  rw [withRetryGo, h]
  simp [hm]

theorem withRetryGo_retry {α : Type} (fn : Nat → Except Err α) (m c a : Nat) (e : Err)
    (h : fn c = .error e) (hm : ¬ m < a + 1) (hr : retryableErr e = true) :
    withRetryGo fn m c a
      = ((withRetryGo fn m (c + 1) (a + 1)).1,
          backoffDelay (a + 1) :: (withRetryGo fn m (c + 1) (a + 1)).2) := by
  rw [withRetryGo, h]
  simp [hm, hr]

theorem withRetryGo_fatal {α : Type} (fn : Nat → Except Err α) (m c a : Nat) (e : Err)
    (h : fn c = .error e) (hm : ¬ m < a + 1) (hr : retryableErr e = false) :
    withRetryGo fn m c a = (.error e, []) := by
  rw [withRetryGo, h]
  simp [hm, hr]

theorem withRetryGo_always {α : Type} (fn : Nat → Except Err α) (m : Nat)
    (hfn : ∀ i, ∃ e, fn i = .error e ∧ retryableErr e = true) :
    ∀ (k c a : Nat), a + k = m →
      ∃ e, fn (c + k) = .error e ∧
        withRetryGo fn m c a = (.error e, (List.range' (a + 1) k).map backoffDelay) := by
  intro k
  induction k with
  | zero =>
    intro c a ha
    obtain ⟨e, he, _⟩ := hfn c
    exact ⟨e, he, withRetryGo_exhausted fn m c a e he (by omega)⟩
  | succ k ih =>
    intro c a ha
    obtain ⟨e0, he0, hr0⟩ := hfn c
    obtain ⟨e, he, hgo⟩ := ih (c + 1) (a + 1) (by omega)
    refine ⟨e, ?_, ?_⟩
    · rw [show c + (k + 1) = c + 1 + k by omega]
      exact he
    · rw [withRetryGo_retry fn m c a e0 he0 (by omega) hr0, hgo, List.range'_succ]
      simp

/-! ## Helper lemmas: reconciler -/

theorem upsertRecords_length (flt : StoreFaults) (now : Nat) :
    ∀ (recs : List Rec) (st : Store),
      (upsertRecords flt now recs st).2.length = recs.length := by
  intro recs
  induction recs with
  | nil => intro st; rfl
  | cons r rs ih =>
    intro st
    simp only [upsertRecords, List.length_cons]
    rw [ih]

theorem rowMatches_applyUpdate (r : Rec) (rowId : Nat) (status : Option String)
    (now : Nat) (row : Row) :
    rowMatches r (applyUpdate rowId status now row) = rowMatches r row := by
  unfold applyUpdate
  split <;> rfl

theorem applyUpdate_id (rowId : Nat) (status : Option String) (now : Nat) (row : Row) :
    (applyUpdate rowId status now row).id = row.id := by
  unfold applyUpdate
  split <;> rfl

theorem statusDiffers_some_some (s : String) : statusDiffers (some s) (some s) = false := by
  simp [statusDiffers]

theorem statusDiffers_of_ne (a b : Option String) (h : a ≠ b) :
    statusDiffers a b = true := by
  match a, b with
  | some x, some y =>
    simp only [statusDiffers, bne_iff_ne, ne_eq]
    intro hxy
    exact h (by rw [hxy])
  | some x, none => rfl
  | none, some y => rfl
  | none, none => exact absurd rfl h

theorem status_eq_of_not_differs (a : Option String) (s : String)
    (h : statusDiffers a (some s) = false) : a = some s := by
  match a with
  | none => exact absurd h (by simp [statusDiffers])
  | some t =>
    simp only [statusDiffers, bne_eq_false_iff_eq] at h
    rw [h]

theorem findRow_insertRow_self (st : Store) (r : Rec) (now : Nat)
    (hse : r.substance ≠ none) (hce : r.country_code ≠ none)
    (hn : findRow st r = none) :
    findRow (st.insertRow r now) r
      = some ⟨st.nextId, r.substance, r.country_code, r.access_status, now⟩ := by
  obtain ⟨s, hs⟩ := Option.ne_none_iff_exists'.mp hse
  obtain ⟨c, hc⟩ := Option.ne_none_iff_exists'.mp hce
  unfold findRow Store.insertRow
  unfold findRow at hn
  rw [List.find?_append, hn]
  simp [List.find?, rowMatches, filterVal, hs, hc]

theorem findRow_insertRow_preserve (st : Store) (r r2 : Rec) (now : Nat) (row : Row)
    (hf : findRow st r = some row) :
    findRow (st.insertRow r2 now) r = some row := by
  unfold findRow Store.insertRow
  unfold findRow at hf
  rw [List.find?_append, hf]
  rfl

theorem findRow_updateRow (st : Store) (r : Rec) (rowId : Nat) (status : Option String)
    (now : Nat) :
    findRow (st.updateRow rowId status now) r
      = (findRow st r).map (applyUpdate rowId status now) := by
  unfold findRow Store.updateRow
  rw [List.find?_map]
  have hp : (rowMatches r ∘ applyUpdate rowId status now) = rowMatches r := by
    funext row
    exact rowMatches_applyUpdate r rowId status now row
  rw [hp]

theorem WF_insertRow (st : Store) (r : Rec) (now : Nat) (h : st.WF) :
    (st.insertRow r now).WF := by
  obtain ⟨hlt, hnd⟩ := h
  constructor
  · intro row hrow
    rcases List.mem_append.mp hrow with hrow | hrow
    · exact Nat.lt_succ_of_lt (hlt row hrow)
    · rw [List.mem_singleton.mp hrow]
      exact Nat.lt_succ_self _
  · have hmem : st.nextId ∉ st.rows.map Row.id := by
      intro hmem
      obtain ⟨row, hrow, hid⟩ := List.mem_map.mp hmem
      exact absurd (hid ▸ hlt row hrow) (Nat.lt_irrefl _)
    show ((st.rows ++ [_]).map Row.id).Nodup
    rw [List.map_append, List.nodup_append]
    refine ⟨hnd, List.nodup_singleton _, ?_⟩
    intro a ha hb
    rw [List.mem_singleton.mp hb] at ha
    exact hmem ha

theorem WF_updateRow (st : Store) (rowId : Nat) (status : Option String) (now : Nat)
    (h : st.WF) : (st.updateRow rowId status now).WF := by
  obtain ⟨hlt, hnd⟩ := h
  constructor
  · intro row hrow
    obtain ⟨row0, hrow0, rfl⟩ := List.mem_map.mp hrow
    rw [applyUpdate_id]
    exact hlt row0 hrow0
  · show ((st.rows.map _).map Row.id).Nodup
    rw [List.map_map]
    have hp : (Row.id ∘ applyUpdate rowId status now) = Row.id := by
      funext row
      exact applyUpdate_id rowId status now row
    rw [hp]
    exact hnd

theorem WF_step (flt : StoreFaults) (now : Nat) (st : Store) (r : Rec) (h : st.WF) :
    ((step flt now st r).1).WF := by
  unfold step
  split
  · exact h
  · split
    · split
      · exact h
      · exact WF_insertRow st r now h
    · split
      · split
        · exact h
        · exact WF_updateRow _ _ _ _ h
      · exact h

theorem WF_run (flt : StoreFaults) (now : Nat) :
    ∀ (recs : List Rec) (st : Store), st.WF → ((upsertRecords flt now recs st).1).WF := by
  intro recs
  induction recs with
  | nil => intro st h; exact h
  | cons r rs ih =>
    intro st h
    simp only [upsertRecords]
    exact ih _ (WF_step flt now st r h)

theorem agrees_step_establish (now : Nat) (st : Store) (r : Rec)
    (hse : r.substance ≠ none) (hce : r.country_code ≠ none)
    (hsa : r.access_status ≠ none) :
    agrees ((step noFaults now st r).1) r := by
  obtain ⟨s, hs⟩ := Option.ne_none_iff_exists'.mp hsa
  rcases hf : findRow st r with _ | row
  · refine ⟨⟨st.nextId, r.substance, r.country_code, r.access_status, now⟩, s, ?_, hs, hs⟩
    have hins := findRow_insertRow_self st r now hse hce hf
    simp only [step, noFaults, hf]
    exact hins
  · cases hsd : statusDiffers row.access_status r.access_status with
    | false =>
      have hrow : row.access_status = some s := by
        apply status_eq_of_not_differs
        rw [← hs]
        exact hsd
      have hstep : step noFaults now st r = (st, .skipped) := by
        simp [step, noFaults, hf, hsd]
      refine ⟨row, s, ?_, hrow, hs⟩
      rw [hstep]
      exact hf
    | true =>
      have hstep : step noFaults now st r
          = (st.updateRow row.id r.access_status now, .updated) := by
        simp [step, noFaults, hf, hsd]
      refine ⟨applyUpdate row.id r.access_status now row, s, ?_, ?_, hs⟩
      · rw [hstep]
        have hupd := findRow_updateRow st r row.id r.access_status now
        rw [hf, Option.map_some'] at hupd
        exact hupd
      · unfold applyUpdate
        rw [if_pos rfl]
        simp [hs]

theorem agrees_step_preserve (now : Nat) (st : Store) (r r2 : Rec)
    (hWF : st.WF) (ha : agrees st r)
    (hse : r.substance ≠ none) (hce : r.country_code ≠ none)
    (hse2 : r2.substance ≠ none) (hce2 : r2.country_code ≠ none)
    (hkey : sameKey r2 r → r2.access_status = r.access_status) :
    agrees ((step noFaults now st r2).1) r := by
  obtain ⟨row, s, hfr, hrowst, hrst⟩ := ha
  rcases hf2 : findRow st r2 with _ | row2
  · refine ⟨row, s, ?_, hrowst, hrst⟩
    simp only [step, noFaults, hf2]
    exact findRow_insertRow_preserve st r r2 now row hfr
  · cases hsd : statusDiffers row2.access_status r2.access_status with
    | false =>
      have hstep : step noFaults now st r2 = (st, .skipped) := by
        simp [step, noFaults, hf2, hsd]
      refine ⟨row, s, ?_, hrowst, hrst⟩
      rw [hstep]
      exact hfr
    | true =>
      by_cases hid : row.id = row2.id
      · exfalso
        have hrmem := List.mem_of_find?_eq_some hfr
        have hr2mem := List.mem_of_find?_eq_some hf2
        have hrows : row = row2 :=
          List.inj_on_of_nodup_map hWF.2 hrmem hr2mem hid
        subst hrows
        have hm := List.find?_some hfr
        have hm2 := List.find?_some hf2
        obtain ⟨sb, hsb⟩ := Option.ne_none_iff_exists'.mp hse
        obtain ⟨c, hc⟩ := Option.ne_none_iff_exists'.mp hce
        obtain ⟨sb2, hsb2⟩ := Option.ne_none_iff_exists'.mp hse2
        obtain ⟨c2, hc2⟩ := Option.ne_none_iff_exists'.mp hce2
        rw [rowMatches, hsb, hc] at hm
        rw [rowMatches, hsb2, hc2] at hm2
        simp only [filterVal, Bool.and_eq_true, beq_iff_eq] at hm hm2
        have hkeys : sameKey r2 r := by
          constructor
          · rw [hsb, hsb2]
            rw [hm.1] at hm2
            exact hm2.1.symm ▸ rfl
          · rw [hc, hc2]
            rw [hm.2] at hm2
            exact hm2.2.symm ▸ rfl
        have hagree := hkey hkeys
        rw [hagree, hrst, hrowst, statusDiffers_some_some] at hsd
        exact Bool.false_ne_true hsd
      · have hstep : step noFaults now st r2
            = (st.updateRow row2.id r2.access_status now, .updated) := by
          simp [step, noFaults, hf2, hsd]
        refine ⟨row, s, ?_, hrowst, hrst⟩
        rw [hstep]
        have hupd := findRow_updateRow st r row2.id r2.access_status now
        rw [hfr, Option.map_some'] at hupd
        have happ : applyUpdate row2.id r2.access_status now row = row := by
          unfold applyUpdate
          rw [if_neg hid]
        rw [happ] at hupd
        exact hupd

theorem agrees_run_preserve (now : Nat) :
    ∀ (recs : List Rec) (st : Store) (r : Rec), st.WF → agrees st r →
      r.substance ≠ none → r.country_code ≠ none → keysPresent recs →
      (∀ r2 ∈ recs, sameKey r2 r → r2.access_status = r.access_status) →
      agrees ((upsertRecords noFaults now recs st).1) r := by
  intro recs
  induction recs with
  | nil => intro st r _ ha _ _ _ _; exact ha
  | cons x xs ih =>
    intro st r hWF ha hse hce hpres hkey
    have hx := hpres x (List.mem_cons_self x xs)
    simp only [upsertRecords]
    exact ih _ r (WF_step noFaults now st x hWF)
      (agrees_step_preserve now st r x hWF ha hse hce hx.1 hx.2
        (hkey x (List.mem_cons_self x xs)))
      hse hce
      (fun q hq => hpres q (List.mem_cons_of_mem x hq))
      (fun q hq => hkey q (List.mem_cons_of_mem x hq))

theorem agrees_run_establish (now : Nat) :
    ∀ (recs : List Rec) (st : Store), st.WF → keysPresent recs → statusPresent recs →
      keyConsistent recs →
      ∀ r ∈ recs, agrees ((upsertRecords noFaults now recs st).1) r := by
  intro recs
  induction recs with
  | nil => intro st _ _ _ _ r hr; cases hr
  | cons x xs ih =>
    intro st hWF hpres hstat hcons r hr
    have hx := hpres x (List.mem_cons_self x xs)
    rcases List.mem_cons.mp hr with rfl | hr2
    · simp only [upsertRecords]
      exact agrees_run_preserve now xs ((step noFaults now st r).1) r
        (WF_step noFaults now st r hWF)
        (agrees_step_establish now st r hx.1 hx.2 (hstat r (List.mem_cons_self r xs)))
        hx.1 hx.2
        (fun q hq => hpres q (List.mem_cons_of_mem r hq))
        (fun q hq => hcons q (List.mem_cons_of_mem r hq) r (List.mem_cons_self r xs))
    · simp only [upsertRecords]
      exact ih ((step noFaults now st x).1) (WF_step noFaults now st x hWF)
        (fun q hq => hpres q (List.mem_cons_of_mem x hq))
        (fun q hq => hstat q (List.mem_cons_of_mem x hq))
        (fun q hq q2 hq2 => hcons q (List.mem_cons_of_mem x hq) q2
          (List.mem_cons_of_mem x hq2))
        r hr2

theorem run_all_skip (now : Nat) :
    ∀ (recs : List Rec) (st : Store), (∀ r ∈ recs, agrees st r) →
      upsertRecords noFaults now recs st = (st, recs.map fun _ => Decision.skipped) := by
  intro recs
  induction recs with
  | nil => intro st _; rfl
  | cons x xs ih =>
    intro st hall
    obtain ⟨row, s, hfr, hrowst, hrecst⟩ := hall x (List.mem_cons_self x xs)
    have hstep : step noFaults now st x = (st, .skipped) := by
      simp [step, noFaults, hfr, hrowst, hrecst, statusDiffers_some_some]
    simp only [upsertRecords, hstep]
    rw [ih st (fun r h => hall r (List.mem_cons_of_mem x h))]
    rfl

/-! ## Helper lemmas: orchestrator -/

theorem collectBatches_error (oracle : Nat → Except OracleFailure (List Rec))
    (e : OracleFailure) :
    ∀ (n s i : Nat), s ≤ i → i < s + n →
      (∀ j, s ≤ j → j < i → ∃ rs, oracle j = .ok rs) →
      oracle i = .error e →
      collectBatches oracle s n = .error e := by
  intro n
  induction n with
  | zero => intro s i h1 h2 _ _; omega
  | succ n ih =>
    intro s i h1 h2 hok herr
    rcases Nat.eq_or_lt_of_le h1 with rfl | hlt
    · simp [collectBatches, herr]
    · obtain ⟨rs, hrs⟩ := hok s (Nat.le_refl s) hlt
      have hrec := ih (s + 1) i hlt (by omega)
        (fun j hj1 hj2 => hok j (by omega) hj2) herr
      simp [collectBatches, hrs, hrec]

/-! ## Claim theorems -/

/-- C1 counterexample: reconciling the same record sequence twice is not
idempotent for every record sequence.  With two records sharing a key but
disagreeing in status the second run performs two updates; with a record
missing its subject identifier the second run performs another insert (its
`undefined`-serialized lookup never matches the NULL-keyed row it inserted);
and with a record carrying both keys but no status the second run performs an
update (the strict comparison deems the row's NULL different from the
record's absent status, so every run re-patches the timestamp).  In all three
cases the second run's write count is nonzero, not the claimed zero. -/
theorem upsertRecords_idempotent_cex :
    ((upsertRecords noFaults 0 dupRecs
        (upsertRecords noFaults 0 dupRecs store0).1).2.countP isWrite ≠ 0)
  ∧ ((upsertRecords noFaults 0 missRecs
        (upsertRecords noFaults 0 missRecs store0).1).2.countP isWrite ≠ 0)
  ∧ ((upsertRecords noFaults 0 noStatusRecs
        (upsertRecords noFaults 0 noStatusRecs store0).1).2.countP isWrite ≠ 0) := by
  refine ⟨?_, ?_, ?_⟩
  · decide
  · decide
  · decide

/-- C1 (amended): for every record sequence whose records all carry both key
fields and a status, and in which any two records sharing a (subject, scope)
key carry the same status, reconciling the sequence a second time against the
state produced by the first run (from any well-formed store) leaves the
persisted state identical and produces only no-op (skipped) decisions — zero
inserts and zero updates. -/
theorem upsertRecords_idempotent (now1 now2 : Nat) (recs : List Rec) (st0 : Store)
    (hWF : st0.WF) (hpres : keysPresent recs) (hstat : statusPresent recs)
    (hcons : keyConsistent recs) :
    upsertRecords noFaults now2 recs (upsertRecords noFaults now1 recs st0).1
      = ((upsertRecords noFaults now1 recs st0).1,
          recs.map fun _ => Decision.skipped) :=
  run_all_skip now2 recs _ (agrees_run_establish now1 recs st0 hWF hpres hstat hcons)

/-- C1 witness: the amended idempotence theorem applied to two concrete
well-formed records reconciled twice from the empty store. -/
theorem upsertRecords_idempotent_witness :
    upsertRecords noFaults 7 goodRecs (upsertRecords noFaults 3 goodRecs store0).1
      = ((upsertRecords noFaults 3 goodRecs store0).1,
          goodRecs.map fun _ => Decision.skipped) :=
  upsertRecords_idempotent 3 7 goodRecs store0 (by decide) (by decide) (by decide)
    (by decide)

/-- C2 counterexample: the claimed decision table is wrong at records lacking
a status.  A store row whose status column is NULL and a record whose status
is absent have "the same status", yet the run updates the row (refreshing its
timestamp from 5 to 9) instead of performing no write, because the strict
comparison of line 155 deems JavaScript `null` different from `undefined`.
And against a row whose status is `Banned`, a status-less record has "a
different status", yet the update does not set the row "to the new status":
the serialized PATCH drops the absent field, and the column keeps `Banned`
while only the timestamp is refreshed. -/
theorem upsertRecords_decision_table_cex :
    (upsertRecords noFaults 9 [recNoStatus] storeNullStatus).2 = [Decision.updated]
  ∧ (upsertRecords noFaults 9 [recNoStatus] storeNullStatus).1
      = ⟨[⟨0, some "Ketamine", some "US", none, 9⟩], 1⟩
  ∧ (upsertRecords noFaults 9 [recNoStatus] store1).2 = [Decision.updated]
  ∧ (upsertRecords noFaults 9 [recNoStatus] store1).1
      = ⟨[⟨0, some "Ketamine", some "US", some "Banned", 9⟩], 1⟩ := by
  refine ⟨?_, ?_, ?_, ?_⟩
  · decide
  · decide
  · decide
  · decide

/-- C2 (amended): the reconciliation decision table under the strict status
comparison of line 155.  Processing a record against a store with no row
under the record's (subject, scope) key inserts a fresh row (with the
record's fields and the current timestamp, per `Store.insertRow`); against a
row whose status and the record's status are both present and equal it
performs no write and the state is unchanged; in every other case — differing
present statuses, or either status absent — it updates the row with a
refreshed timestamp, the status column being set to the record's status when
that status is present and left unchanged when it is absent.  In each case
processing continues on the remaining records from the resulting state. -/
theorem upsertRecords_decision_table (now : Nat) (r : Rec) (rs : List Rec) (st : Store) :
    ∃ st1 d,
      upsertRecords noFaults now (r :: rs) st
        = ((upsertRecords noFaults now rs st1).1, d :: (upsertRecords noFaults now rs st1).2)
    ∧ (findRow st r = none → st1 = st.insertRow r now ∧ d = Decision.inserted)
    ∧ (∀ row s, findRow st r = some row → row.access_status = some s →
         r.access_status = some s → st1 = st ∧ d = Decision.skipped)
    ∧ (∀ row, findRow st r = some row →
         statusDiffers row.access_status r.access_status = true →
         st1 = st.updateRow row.id r.access_status now ∧ d = Decision.updated
         ∧ ∃ row2, findRow st1 r = some row2 ∧ row2.updated_at = now
             ∧ row2.access_status
                 = (match r.access_status with
                    | some srec => some srec
                    | none => row.access_status)) := by
  refine ⟨(step noFaults now st r).1, (step noFaults now st r).2, rfl, ?_, ?_, ?_⟩
  · intro hn
    constructor
    · simp [step, noFaults, hn]
    · simp [step, noFaults, hn]
  · intro row s hsrow hrowst hrst
    have hsd : statusDiffers row.access_status r.access_status = false := by
      rw [hrowst, hrst, statusDiffers_some_some]
    constructor
    · simp [step, noFaults, hsrow, hsd]
    · simp [step, noFaults, hsrow, hsd]
  · intro row hsrow hsd
    have hstep1 : (step noFaults now st r).1 = st.updateRow row.id r.access_status now := by
      simp [step, noFaults, hsrow, hsd]
    have hstep2 : (step noFaults now st r).2 = Decision.updated := by
      simp [step, noFaults, hsrow, hsd]
    refine ⟨hstep1, hstep2, ?_⟩
    have hupd := findRow_updateRow st r row.id r.access_status now
    rw [hsrow, Option.map_some'] at hupd
    refine ⟨applyUpdate row.id r.access_status now row, ?_, ?_, ?_⟩
    · rw [hstep1]
      exact hupd
    · unfold applyUpdate
      rw [if_pos rfl]
    · unfold applyUpdate
      rw [if_pos rfl]

/-- C2 witness: the amended decision table instantiated at a concrete record
and the empty store. -/
theorem upsertRecords_decision_table_witness :
    ∃ st1 d,
      upsertRecords noFaults 5 (recA :: []) store0
        = ((upsertRecords noFaults 5 [] st1).1, d :: (upsertRecords noFaults 5 [] st1).2)
    ∧ (findRow store0 recA = none → st1 = store0.insertRow recA 5 ∧ d = Decision.inserted)
    ∧ (∀ row s, findRow store0 recA = some row → row.access_status = some s →
         recA.access_status = some s → st1 = store0 ∧ d = Decision.skipped)
    ∧ (∀ row, findRow store0 recA = some row →
         statusDiffers row.access_status recA.access_status = true →
         st1 = store0.updateRow row.id recA.access_status 5 ∧ d = Decision.updated
         ∧ ∃ row2, findRow st1 recA = some row2 ∧ row2.updated_at = 5
             ∧ row2.access_status
                 = (match recA.access_status with
                    | some srec => some srec
                    | none => row.access_status)) :=
  upsertRecords_decision_table 5 recA [] store0

/-- C3: for every scope catalog and every positive batch size `B`, the batch
planning loop produces exactly the ceiling of `N / B` batches, each of length
at most `B`, whose in-order concatenation is the original catalog (hence
contiguous slices with no duplicates and no omissions). -/
theorem planBatches_coverage {α : Type} (B : Nat) (xs : List α) (hB : 0 < B) :
    (planBatches B xs).length = xs.length ⌈/⌉ B
  ∧ (planBatches B xs).flatten = xs
  ∧ ∀ b ∈ planBatches B xs, b.length ≤ B :=
  planBatches_spec B hB xs.length xs (Nat.le_refl _)

/-- C3 witness: the coverage theorem applied to the 194-entry `COUNTRIES`
catalog with the source's batch size 25 (the batch count evaluates to 8). -/
theorem planBatches_coverage_witness :
    0 < batchSize
  ∧ (planBatches batchSize COUNTRIES).flatten = COUNTRIES
  ∧ (planBatches batchSize COUNTRIES).length = COUNTRIES.length ⌈/⌉ batchSize :=
  ⟨by decide, (planBatches_coverage batchSize COUNTRIES (by decide)).2.1,
    (planBatches_coverage batchSize COUNTRIES (by decide)).1⟩

/-- C4: behaviour of the backoff retrier.  First, a unit of work failing with
a rate-limit-class error on its first three invocations and succeeding on the
fourth returns the success under the default `maxRetries = 5`, with computed
sleep delays exactly 2000ms, 4000ms, 8000ms.  Second, a unit of work that
always fails with a rate-limit-class error raises the error of its final
invocation after exactly `maxRetries` retry attempts (so `maxRetries + 1`
invocations), with the delays following `min(2000 * 2 ^ (attempt - 1), 30000)`
for attempts `1 .. maxRetries`.  Third, a non-retryable failure propagates
immediately and unchanged, with zero delays. -/
theorem withRetry_behavior {α : Type} :
    (∀ (fn : Nat → Except Err α) (v : α) (e0 e1 e2 : Err),
       fn 0 = .error e0 → retryableErr e0 = true →
       fn 1 = .error e1 → retryableErr e1 = true →
       fn 2 = .error e2 → retryableErr e2 = true →
       fn 3 = .ok v →
       withRetry fn defaultMaxRetries = (.ok v, [2000, 4000, 8000]))
  ∧ (∀ (fn : Nat → Except Err α) (maxRetries : Nat),
       (∀ i, ∃ e, fn i = .error e ∧ retryableErr e = true) →
       ∃ e, fn maxRetries = .error e ∧
         withRetry fn maxRetries
           = (.error e, (List.range' 1 maxRetries).map backoffDelay))
  ∧ (∀ (fn : Nat → Except Err α) (maxRetries : Nat) (e : Err),
       fn 0 = .error e → retryableErr e = false →
       withRetry fn maxRetries = (.error e, [])) := by
  refine ⟨?_, ?_, ?_⟩
  · intro fn v e0 e1 e2 h0 hr0 h1 hr1 h2 hr2 h3
    unfold withRetry defaultMaxRetries
    rw [withRetryGo_retry fn 5 0 0 e0 h0 (by omega) hr0,
      withRetryGo_retry fn 5 1 1 e1 h1 (by omega) hr1,
      withRetryGo_retry fn 5 2 2 e2 h2 (by omega) hr2,
      withRetryGo_ok fn 5 3 3 v h3]
    rfl
  · intro fn maxRetries hfn
    obtain ⟨e, he, hgo⟩ := withRetryGo_always fn maxRetries hfn maxRetries 0 0 (by omega)
    exact ⟨e, by simpa using he, hgo⟩
  · intro fn maxRetries e h0 hr
    rcases Nat.eq_zero_or_pos maxRetries with rfl | hpos
    · exact withRetryGo_exhausted fn 0 0 0 e h0 (by omega)
    · exact withRetryGo_fatal fn maxRetries 0 0 e h0 (by omega) hr

/-- C4 witness: the three behaviours at concrete units of work — three
rate-limited failures then success, persistent rate-limited failure with
`maxRetries = 2`, and an immediate non-retryable failure. -/
theorem withRetry_behavior_witness :
    withRetry (fun i => if i < 3 then .error ⟨some 429, "rate"⟩ else .ok 42)
        defaultMaxRetries
      = (.ok 42, [2000, 4000, 8000])
  ∧ withRetry (fun _ => (.error ⟨some 503, "server"⟩ : Except Err Nat)) 2
      = (.error ⟨some 503, "server"⟩, [2000, 4000])
  ∧ withRetry (fun _ => (.error ⟨some 400, "bad request"⟩ : Except Err Nat)) 5
      = (.error ⟨some 400, "bad request"⟩, []) := by
  refine ⟨?_, ?_, ?_⟩
  · exact withRetry_behavior.1 (fun i => if i < 3 then .error ⟨some 429, "rate"⟩ else .ok 42)
      42 ⟨some 429, "rate"⟩ ⟨some 429, "rate"⟩ ⟨some 429, "rate"⟩
      rfl rfl rfl rfl rfl rfl rfl
  · obtain ⟨e, he, hw⟩ := withRetry_behavior.2.1
      (fun _ => (.error ⟨some 503, "server"⟩ : Except Err Nat)) 2
      (fun _ => ⟨⟨some 503, "server"⟩, rfl, rfl⟩)
    cases he
    exact hw
  · exact withRetry_behavior.2.2
      (fun _ => (.error ⟨some 400, "bad request"⟩ : Except Err Nat)) 5
      ⟨some 400, "bad request"⟩ rfl rfl

/-- C5: shape tolerance of the oracle client's reply handling.  A reply whose
parsed content is a bare array of records and a reply wrapping that same array
in an object under an arbitrary key both normalize to the same record
sequence. -/
theorem getAccessStatuses_shape_tolerant (xs : List Json) (k : String) :
    getAccessStatuses (.parsed (.arr xs)) = .ok xs
  ∧ getAccessStatuses (.parsed (.obj [(k, .arr xs)])) = .ok xs :=
  ⟨rfl, rfl⟩

/-- Helper for C6: for a parsed value that is neither an array nor `null`,
the reply handling enumerates the child values and selects the first array
among them. -/
theorem getAccessStatuses_not_array (p : Json) (harr : p.asArr? = none)
    (hnull : p ≠ Json.null) :
    ∃ vs, childValues p = some vs ∧
      getAccessStatuses (.parsed p)
        = (match vs.findSome? Json.asArr? with
           | some xs => .ok xs
           | none => .error (.unexpectedShape p)) := by
  cases p with
  | null => exact absurd rfl hnull
  | bool b => exact ⟨_, rfl, rfl⟩
  | num n => exact ⟨_, rfl, rfl⟩
  | str s => exact ⟨_, rfl, rfl⟩
  | arr es => exact absurd harr (by simp [Json.asArr?])
  | obj fs => exact ⟨_, rfl, rfl⟩

/-- C6 counterexample: the reply whose content parses to `null` is not a
sequence and has no sequence child, yet the failure raised is the type error
from enumerating the children of `null`, not the claimed unexpected-shape
error — so the claim's exhaustive enumeration of failure cases is wrong at
this input. -/
theorem getAccessStatuses_null_cex :
    getAccessStatuses (.parsed .null) = .error .typeError
  ∧ firstArrayChild Json.null = none
  ∧ OracleFailure.typeError ≠ OracleFailure.unexpectedShape Json.null :=
  ⟨rfl, rfl, fun h => OracleFailure.noConfusion h⟩

/-- C6 (amended): the oracle client fails with the empty-reply error on
missing content; otherwise with the malformed-JSON error on unparsable
content; an array reply is returned as is; a reply parsing to `null` raises
the type error from child-value enumeration; any other non-sequence reply
yields its first sequence child when one exists and fails with the
unexpected-shape error only when no such child exists. -/
theorem getAccessStatuses_failure_cases :
    (getAccessStatuses .empty = .error .emptyReply)
  ∧ (∀ raw, getAccessStatuses (.unparsable raw) = .error (.malformedJson (raw.take 200)))
  ∧ (∀ xs, getAccessStatuses (.parsed (.arr xs)) = .ok xs)
  ∧ (getAccessStatuses (.parsed .null) = .error .typeError)
  ∧ (∀ p, p.asArr? = none → p ≠ Json.null →
       (∀ xs, firstArrayChild p = some xs → getAccessStatuses (.parsed p) = .ok xs)
     ∧ (firstArrayChild p = none →
          getAccessStatuses (.parsed p) = .error (.unexpectedShape p))) := by
  refine ⟨rfl, fun raw => rfl, fun xs => rfl, rfl, ?_⟩
  intro p harr hnull
  obtain ⟨vs, hcv, hga⟩ := getAccessStatuses_not_array p harr hnull
  have hfc : firstArrayChild p = vs.findSome? Json.asArr? := by
    unfold firstArrayChild
    rw [hcv]
  constructor
  · intro xs hfx
    rw [hfc] at hfx
    rw [hga, hfx]
  · intro hn
    rw [hfc] at hn
    rw [hga, hn]

/-- C6 witness: the amended failure-case theorem applied to the non-sequence
reply `3`, whose children contain no sequence. -/
theorem getAccessStatuses_failure_cases_witness :
    getAccessStatuses (.parsed (.num 3)) = .error (.unexpectedShape (.num 3)) :=
  ((getAccessStatuses_failure_cases.2.2.2.2) (.num 3) rfl
    (fun h => Json.noConfusion h)).2 rfl

/-- C7 counterexample: a record missing its subject identifier is not dropped
by any normalization — reconciling it against the empty store inserts a
persisted row (with a null subject column), so such records do reach the
persisted store. -/
theorem missing_key_cex :
    (upsertRecords noFaults 0 missRecs store0).1.rows
      = [⟨0, none, some "US", some "Banned", 0⟩] := by
  decide

/-- C7 (amended): no validation drops records missing their subject or scope
identifier.  Such a record proceeds through reconciliation like any other;
when its (partly absent) key matches no persisted row and the insert
succeeds, the reconciler inserts it, appending a row that itself lacks the
missing key field — the record reaches the persisted store rather than being
dropped. -/
theorem missing_key_processed (now : Nat) (r : Rec) (st : Store)
    (hmiss : r.substance = none ∨ r.country_code = none)
    (hfind : findRow st r = none) :
    step noFaults now st r = (st.insertRow r now, .inserted)
  ∧ ∃ row, (st.insertRow r now).rows = st.rows ++ [row]
      ∧ (row.substance = none ∨ row.country_code = none) := by
  refine ⟨by simp [step, noFaults, hfind], ⟨_, rfl, ?_⟩⟩
  exact hmiss

/-- C7 witness: the amended theorem applied to a record with no subject field
against the empty store. -/
theorem missing_key_processed_witness :
    step noFaults 0 store0 ⟨none, some "US", some "Banned"⟩
      = (store0.insertRow ⟨none, some "US", some "Banned"⟩ 0, .inserted)
  ∧ ∃ row, (store0.insertRow ⟨none, some "US", some "Banned"⟩ 0).rows
        = store0.rows ++ [row]
      ∧ (row.substance = none ∨ row.country_code = none) :=
  missing_key_processed 0 ⟨none, some "US", some "Banned"⟩ store0 (Or.inl rfl) rfl

/-- C8: a failing store lookup is isolated to its record.  When the fetch for
the head record fails, that record contributes exactly one fetch-error
decision and leaves the store untouched, and the remaining records are
processed exactly as they would have been; moreover every record of any input
always receives a decision — a per-record fetch failure never aborts the
run. -/
theorem fetch_failure_isolated (flt : StoreFaults) (now : Nat) (r : Rec)
    (rs : List Rec) (st : Store) (h : flt.fetchFail r = true) :
    upsertRecords flt now (r :: rs) st
      = ((upsertRecords flt now rs st).1,
          Decision.fetchError :: (upsertRecords flt now rs st).2)
  ∧ ∀ (recs : List Rec) (st2 : Store),
      (upsertRecords flt now recs st2).2.length = recs.length := by
  constructor
  · simp [upsertRecords, step, h]
  · exact fun recs st2 => upsertRecords_length flt now recs st2

/-- C8 witness: the isolation theorem applied to a store whose every fetch
fails, on a two-record input. -/
theorem fetch_failure_isolated_witness :
    upsertRecords fltFetch 0 (recA :: [recB]) store0
      = ((upsertRecords fltFetch 0 [recB] store0).1,
          Decision.fetchError :: (upsertRecords fltFetch 0 [recB] store0).2)
  ∧ ∀ (recs : List Rec) (st2 : Store),
      (upsertRecords fltFetch 0 recs st2).2.length = recs.length :=
  fetch_failure_isolated fltFetch 0 recA [recB] store0 rfl

/-- C9: fatal collection failure forbids partial reconciliation.  If some
batch's oracle query fails (all earlier batches having succeeded), the run
terminates as `fatalAborted` carrying that failure with the store exactly as
it started — no reconcile decision is ever produced; and reconciliation runs
precisely when collection of every batch succeeded, over the full accumulated
record list. -/
theorem fatal_abort_no_partial_reconcile (oracle : Nat → Except OracleFailure (List Rec))
    (flt : StoreFaults) (now : Nat) (st0 : Store) (i : Nat) (e : OracleFailure)
    (hi : i < (planBatches batchSize COUNTRIES).length)
    (hok : ∀ j, j < i → ∃ rs, oracle j = .ok rs)
    (herr : oracle i = .error e) :
    runMain oracle flt now st0 = .fatalAborted e st0
  ∧ ∀ (oracle2 : Nat → Except OracleFailure (List Rec)) (recs : List Rec),
      collectBatches oracle2 0 (planBatches batchSize COUNTRIES).length = .ok recs →
      runMain oracle2 flt now st0
        = .completed (upsertRecords flt now recs st0).1 (upsertRecords flt now recs st0).2 := by
  constructor
  · have hc := collectBatches_error oracle e (planBatches batchSize COUNTRIES).length 0 i
      (Nat.zero_le i) (by omega) (fun j _ hj => hok j hj) herr
    unfold runMain
    rw [hc]
  · intro oracle2 recs hcol
    unfold runMain
    rw [hcol]

set_option maxRecDepth 4000 in
/-- C9 witness: the abort theorem applied to an oracle whose first batch
query fails with the empty-reply error. -/
theorem fatal_abort_no_partial_reconcile_witness :
    runMain (fun _ => .error .emptyReply) noFaults 0 store0
      = .fatalAborted .emptyReply store0 :=
  (fatal_abort_no_partial_reconcile (fun _ => .error .emptyReply) noFaults 0 store0 0
    .emptyReply
    (by
      have h := (planBatches_spec batchSize (by decide) COUNTRIES.length COUNTRIES
        (Nat.le_refl _)).1
      rw [h]
      decide)
    (fun j hj => absurd hj (Nat.not_lt_zero j)) rfl).1

/-- C10: a failing store write is isolated to its record, exactly like a
failing fetch.  A failed insert (no existing row) or a failed update
(existing row, different status) contributes one error decision, leaves the
store untouched, and the remaining records are processed exactly as they
would have been. -/
theorem write_failure_isolated (flt : StoreFaults) (now : Nat) (r : Rec)
    (rs : List Rec) (st : Store) (hf : flt.fetchFail r = false) :
    (findRow st r = none → flt.insertFail r = true →
       upsertRecords flt now (r :: rs) st
         = ((upsertRecords flt now rs st).1,
             Decision.insertError :: (upsertRecords flt now rs st).2))
  ∧ (∀ row, findRow st r = some row → row.access_status ≠ r.access_status →
       flt.updateFail r = true →
       upsertRecords flt now (r :: rs) st
         = ((upsertRecords flt now rs st).1,
             Decision.updateError :: (upsertRecords flt now rs st).2)) := by
  constructor
  · intro hn hins
    simp [upsertRecords, step, hf, hn, hins]
  · intro row hs hne hupd
    have hsd := statusDiffers_of_ne row.access_status r.access_status hne
    simp [upsertRecords, step, hf, hs, hsd, hupd]

/-- C10 witness: the write-isolation theorem applied to a failing insert
against the empty store and to a failing update against a store holding the
record's key with a different status. -/
theorem write_failure_isolated_witness :
    upsertRecords fltInsert 0 (recA :: []) store0
      = ((upsertRecords fltInsert 0 [] store0).1,
          Decision.insertError :: (upsertRecords fltInsert 0 [] store0).2)
  ∧ upsertRecords fltUpdate 0 (recA2 :: []) store1
      = ((upsertRecords fltUpdate 0 [] store1).1,
          Decision.updateError :: (upsertRecords fltUpdate 0 [] store1).2) :=
  ⟨(write_failure_isolated fltInsert 0 recA [] store0 rfl).1 rfl rfl,
   (write_failure_isolated fltUpdate 0 recA2 [] store1 rfl).2
     ⟨0, some "Ketamine", some "US", some "Banned", 0⟩ rfl (by decide) rfl⟩

end DataPopulator
